import Mathlib

/-!
# Verification of the `pipe` crate (synchronous in-memory pipe)

Shallow embedding of `src/lib.rs`: the read endpoint (`PipeReader`), the
unbuffered write endpoint (`PipeWriter`) and the buffered write endpoint
(`PipeBufWriter`), together with the crossbeam bounded(0) channel they talk
to.

Modelling decisions:
* Bytes are `Nat` (the code never computes on byte values), chunks are
  `List Nat`, i.e. `Vec<u8>` becomes `List Nat`.
* The receive side of the channel is modelled as the list of chunks the
  reader will still receive before it observes disconnect; a blocking
  `recv()` on an exhausted list returns the disconnect error.  Blocking
  itself is invisible in a sequential embedding.
* The send side of the channel is a `Channel` state: a `connected` flag and
  the list of chunks accepted so far.  `try_send` on a zero-capacity
  channel succeeds exactly when a receiver is currently waiting; that
  environment fact is passed in as the boolean `receiverReady`.
* `io::Error` collapses to the only kind the code produces, `brokenPipe`
  (from `epipe()`); fallible operations return `Except IOError`.
* `Vec::with_capacity`/`reserve` affect only allocation, so a fresh or
  reserved buffer is the empty list; `Sender` handles are identified by a
  `Nat` id, enough to state handle sharing under `Clone`.
-/

/-- The single error kind produced by the crate: `epipe()` builds an
`io::Error` of kind `BrokenPipe`. -/
inductive IOError where
  | brokenPipe
deriving DecidableEq, Repr

/-- State of the send side of the `crossbeam_channel::bounded(0)` channel:
whether the receiver still exists, and the chunks accepted so far (in
order). -/
structure Channel where
  connected : Bool
  sent : List (List Nat)
deriving DecidableEq, Repr

/-- `Sender::send`: accepted when connected (the chunk is appended to the
stream), `SendError` when the receiver has been dropped. -/
def Channel.send (ch : Channel) (data : List Nat) : Channel × Except Unit Unit :=
  if ch.connected then ({ ch with sent := ch.sent ++ [data] }, .ok ())
  else (ch, .error ())

/-- Result of `Sender::try_send` on a zero-capacity channel.  In the Rust
API the `full`/`disconnected` variants hand the chunk back to the caller;
in the model the caller still holds the same list, so no payload is
needed. -/
inductive TrySendResult where
  | ok
  | full
  | disconnected
deriving DecidableEq, Repr

/-- `Sender::try_send` on `bounded(0)`: `Disconnected` once the receiver is
gone, otherwise `Ok` exactly when a receiver is currently blocked waiting
(`receiverReady`), else `Full`. -/
def Channel.trySend (ch : Channel) (receiverReady : Bool) (data : List Nat) :
    Channel × TrySendResult :=
  if ch.connected then
    if receiverReady then ({ ch with sent := ch.sent ++ [data] }, .ok)
    else (ch, .full)
  else (ch, .disconnected)

/-- `PipeReader`: the receive handle (modelled as the chunks still to
arrive before disconnect), the current chunk, and the cursor into it. -/
structure PipeReader where
  receiver : List (List Nat)
  buffer : List Nat
  position : Nat
deriving DecidableEq, Repr

/-- `PipeWriter`: wraps a `Sender<Vec<u8>>`; the handle is an id, the
channel state is passed to the operations explicitly. -/
structure PipeWriter where
  sender : Nat
deriving DecidableEq, Repr

/-- `PipeBufWriter`: optional send handle (cleared only by `into_inner`),
accumulation buffer, and target capacity `size`. -/
structure PipeBufWriter where
  sender : Option Nat
  buffer : List Nat
  size : Nat
deriving DecidableEq, Repr

/-- The default buffer size used by `pipe_buffered()`. -/
def DEFAULT_BUF_SIZE : Nat := 8 * 1024

/-- `PipeWriter::send`: `self.sender.send(bytes).map_err(|_| epipe()).map(drop)`. -/
def PipeWriter.send (ch : Channel) (bytes : List Nat) : Channel × Except IOError Unit :=
  match Channel.send ch bytes with
  | (ch2, .ok _) => (ch2, .ok ())
  | (ch2, .error _) => (ch2, .error .brokenPipe)

/-- `<&PipeWriter as Write>::write`: copies the input to an owned chunk,
sends it, and reports the full input length on success. -/
def PipeWriter.write (ch : Channel) (buf : List Nat) : Channel × Except IOError Nat :=
  match PipeWriter.send ch buf with
  | (ch2, .ok _) => (ch2, .ok buf.length)
  | (ch2, .error e) => (ch2, .error e)

/-- `<&PipeWriter as Write>::flush`: `Ok(())`. -/
def PipeWriter.flush : Except IOError Unit := .ok ()

/-- The loop of `<PipeReader as BufRead>::fill_buf`, structurally recursive
on the chunks still to be received: while the cursor has exhausted the
current chunk, `recv()`; a received chunk replaces the current one and
resets the cursor; the disconnect error breaks the loop. -/
def fillBufAux : List (List Nat) → List Nat → Nat → PipeReader
  | [], buffer, position => ⟨[], buffer, position⟩
  | data :: rest, buffer, position =>
    if position ≥ buffer.length then fillBufAux rest data 0
    else ⟨data :: rest, buffer, position⟩

/-- `<PipeReader as BufRead>::fill_buf` on the endpoint state; the returned
view into the buffer is `(fillBuf r).buffer.drop (fillBuf r).position`. -/
def PipeReader.fillBuf (r : PipeReader) : PipeReader :=
  fillBufAux r.receiver r.buffer r.position

/-- `<PipeReader as BufRead>::consume`: advance the cursor. -/
def PipeReader.consume (r : PipeReader) (amt : Nat) : PipeReader :=
  { r with position := r.position + amt }

/-- `<PipeReader as Read>::read` with a destination buffer of length `n`:
returns the endpoint state after the call, the byte count returned, and
the bytes copied into the destination. -/
def PipeReader.read (r : PipeReader) (n : Nat) : PipeReader × Nat × List Nat :=
  if n = 0 then (r, 0, [])
  else
    let r2 := r.fillBuf
    let internal := r2.buffer.drop r2.position
    let len := min n internal.length
    if len > 0 then (r2.consume len, len, internal.take len)
    else (r2, len, [])

/-- `Vec::drain(..n)` on the reader buffer: removes the first `n`
elements, leaving the rest. -/
def drainTo : Nat → List Nat → List Nat
  | 0, l => l
  | _ + 1, [] => []
  | n + 1, _ :: t => drainTo n t

/-- `PipeReader::into_inner`: drains the delivered prefix of the current
chunk and returns the receive handle with the unread remainder. -/
def PipeReader.into_inner (r : PipeReader) : List (List Nat) × List Nat :=
  (r.receiver, drainTo r.position r.buffer)

/-- `PipeBufWriter::buffer`. -/
def PipeBufWriter.bufferView (w : PipeBufWriter) : List Nat :=
  w.buffer

/-- `PipeBufWriter::capacity`. -/
def PipeBufWriter.capacity (w : PipeBufWriter) : Nat :=
  w.size

/-- `<PipeBufWriter as Clone>::clone`: same send handle, a fresh empty
buffer of the same capacity. -/
def PipeBufWriter.clone (w : PipeBufWriter) : PipeBufWriter :=
  { sender := w.sender, buffer := [], size := w.size }

/-- `<PipeBufWriter as Write>::flush`: empty buffer succeeds trivially;
otherwise the buffer contents are sent as one blocking chunk; on success
the buffer is left empty (capacity re-reserved), on `SendError` the data
is restored into the buffer and the call fails with broken pipe. -/
def PipeBufWriter.flush (w : PipeBufWriter) (ch : Channel) :
    PipeBufWriter × Channel × Except IOError Unit :=
  if w.buffer.isEmpty then (w, ch, .ok ())
  else
    match Channel.send ch w.buffer with
    | (ch2, .ok _) => ({ w with buffer := [] }, ch2, .ok ())
    | (ch2, .error _) => (w, ch2, .error .brokenPipe)

/-- The `bytes_written` computation of `<PipeBufWriter as Write>::write`:
the full input length for an oversized input, otherwise capped by the room
left in the buffer. -/
def PipeBufWriter.bytesWritten (w : PipeBufWriter) (buf : List Nat) : Nat :=
  if buf.length > w.size then buf.length
  else min buf.length (w.size - w.buffer.length)

/-- `<PipeBufWriter as Write>::write`: stage `bytes_written` input bytes
into the buffer; if the buffer has reached capacity, flush (blocking);
otherwise opportunistically `try_send` the buffer: on `Ok` the buffer is
cleared, on `Full` the chunk is restored unchanged, on `Disconnected` it
is restored and truncated back to its pre-write length and the call fails
with broken pipe. -/
def PipeBufWriter.write (w : PipeBufWriter) (ch : Channel) (receiverReady : Bool)
    (buf : List Nat) : PipeBufWriter × Channel × Except IOError Nat :=
  let buffer_len := w.buffer.length
  let bw := w.bytesWritten buf
  let w1 : PipeBufWriter := { w with buffer := w.buffer ++ buf.take bw }
  if w1.buffer.length ≥ w.size then
    match w1.flush ch with
    | (w2, ch2, .ok _) => (w2, ch2, .ok bw)
    | (w2, ch2, .error e) => (w2, ch2, .error e)
  else
    match Channel.trySend ch receiverReady w1.buffer with
    | (ch2, .ok) => ({ w1 with buffer := [] }, ch2, .ok bw)
    | (ch2, .full) => (w1, ch2, .ok bw)
    | (ch2, .disconnected) =>
      ({ w1 with buffer := w1.buffer.take buffer_len }, ch2, .error .brokenPipe)

/-! ## Helper lemmas -/

theorem drainTo_eq_drop (n : Nat) (l : List Nat) : drainTo n l = l.drop n := by
  induction n generalizing l with
  | zero => cases l <;> rfl
  | succ k ih => cases l with
    | nil => rfl
    | cons a t => simpa [drainTo] using ih t

theorem fillBufAux_cons (data : List Nat) (rest : List (List Nat)) (buffer : List Nat)
    (pos : Nat) :
    fillBufAux (data :: rest) buffer pos =
      if buffer.length ≤ pos then fillBufAux rest data 0 else ⟨data :: rest, buffer, pos⟩ := by
  rfl

theorem fillBufAux_exhausted_iff (recv : List (List Nat)) (buffer : List Nat) (pos : Nat) :
    (fillBufAux recv buffer pos).buffer.length ≤ (fillBufAux recv buffer pos).position ↔
      (buffer.length ≤ pos ∧ ∀ c ∈ recv, c = []) := by
  induction recv generalizing buffer pos with
  | nil => simp [fillBufAux]
  | cons data rest ih =>
    rw [fillBufAux_cons]
    by_cases h : buffer.length ≤ pos
    · rw [if_pos h, ih]
      simp only [List.mem_cons, Nat.le_zero, List.length_eq_zero]
      constructor
      · rintro ⟨h1, h2⟩
        exact ⟨h, fun c hc => hc.elim (fun he => he ▸ h1) (h2 c)⟩
      · rintro ⟨-, h2⟩
        exact ⟨h2 data (Or.inl rfl), fun c hc => h2 c (Or.inr hc)⟩
    · rw [if_neg h]
      simp only []
      constructor
      · intro hle; exact absurd hle h
      · rintro ⟨h1, -⟩; exact absurd h1 h

theorem fillBufAux_exhausted_receiver (recv : List (List Nat)) (buffer : List Nat) (pos : Nat)
    (h : (fillBufAux recv buffer pos).buffer.length ≤ (fillBufAux recv buffer pos).position) :
    (fillBufAux recv buffer pos).receiver = [] := by
  induction recv generalizing buffer pos with
  | nil => rfl
  | cons data rest ih =>
    rw [fillBufAux_cons] at h ⊢
    by_cases hc : buffer.length ≤ pos
    · rw [if_pos hc] at h ⊢
      exact ih data 0 h
    · rw [if_neg hc] at h
      exact absurd h hc

theorem fillBuf_of_receiver_nil (r : PipeReader) (h : r.receiver = []) : r.fillBuf = r := by
  cases r with
  | mk recv buffer pos =>
    cases h
    rfl

theorem read_count_eq (r : PipeReader) (n : Nat) (h : 0 < n) :
    (r.read n).2.1 = min n (r.fillBuf.buffer.length - r.fillBuf.position) := by
  simp only [PipeReader.read, if_neg (Nat.pos_iff_ne_zero.mp h)]
  split
  · simp [List.length_drop]
  · simp [List.length_drop]

theorem read_zero_state (r : PipeReader) (n : Nat) (h0 : 0 < n) (h : (r.read n).2.1 = 0) :
    (r.read n).1 = r.fillBuf ∧ r.fillBuf.receiver = [] ∧
      r.fillBuf.buffer.length ≤ r.fillBuf.position := by
  have hc := read_count_eq r n h0
  rw [h] at hc
  have hrem : r.fillBuf.buffer.length - r.fillBuf.position = 0 := by omega
  have hex : r.fillBuf.buffer.length ≤ r.fillBuf.position := by omega
  refine ⟨?_, ?_, hex⟩
  · simp only [PipeReader.read, if_neg (Nat.pos_iff_ne_zero.mp h0)]
    split
    · rename_i hlt
      simp only [List.length_drop] at hlt
      omega
    · rfl
  · exact fillBufAux_exhausted_receiver r.receiver r.buffer r.position hex

/-! ## Claims about the read endpoint -/

/-- Claim C3: `read` with an empty destination returns 0 immediately and
changes nothing; with a non-empty destination it refills via `fill_buf`,
copies exactly `min(destination length, remaining bytes of the current
chunk from the cursor)` bytes starting at the cursor, advances the cursor
by that amount and returns that count; a return of 0 for a non-empty
destination happens only at end-of-stream (receive side exhausted and the
current chunk fully consumed). -/
theorem C3_read_contract (r : PipeReader) (n : Nat) :
    (n = 0 → r.read n = (r, 0, [])) ∧
    (0 < n →
      (r.read n).2.1 = min n (r.fillBuf.buffer.length - r.fillBuf.position) ∧
      (r.read n).2.2 = (r.fillBuf.buffer.drop r.fillBuf.position).take (r.read n).2.1 ∧
      (r.read n).1.position = r.fillBuf.position + (r.read n).2.1 ∧
      (r.read n).1.buffer = r.fillBuf.buffer ∧
      (r.read n).1.receiver = r.fillBuf.receiver ∧
      ((r.read n).2.1 = 0 →
        (r.read n).1.receiver = [] ∧ (r.read n).1.buffer.length ≤ (r.read n).1.position)) := by
  constructor
  · intro h
    simp [PipeReader.read, h]
  · intro h
    have hn := Nat.pos_iff_ne_zero.mp h
    refine ⟨read_count_eq r n h, ?_⟩
    simp only [PipeReader.read, if_neg hn, PipeReader.consume]
    split
    · rename_i hpos
      have hpos2 : 0 < min n (List.drop r.fillBuf.position r.fillBuf.buffer).length := hpos
      refine ⟨rfl, rfl, rfl, rfl, ?_⟩
      intro h0
      have h02 : min n (List.drop r.fillBuf.position r.fillBuf.buffer).length = 0 := h0
      omega
    · rename_i hpos
      have hpos2 : ¬ 0 < min n (List.drop r.fillBuf.position r.fillBuf.buffer).length := hpos
      have hL : (List.drop r.fillBuf.position r.fillBuf.buffer).length = 0 := by omega
      have hnil : List.drop r.fillBuf.position r.fillBuf.buffer = [] :=
        List.eq_nil_of_length_eq_zero hL
      have hex : r.fillBuf.buffer.length ≤ r.fillBuf.position := by
        rw [List.length_drop] at hL
        omega
      refine ⟨?_, ?_, rfl, rfl, ?_⟩
      · simp [hnil]
      · simp [hnil]
      · intro h0
        exact ⟨fillBufAux_exhausted_receiver r.receiver r.buffer r.position hex, hex⟩

/-- Witness for C3 at a concrete state: one pending two-byte chunk, a
one-byte destination. -/
theorem C3_witness :
    0 < 1 ∧
      ((⟨[[7, 8]], [], 0⟩ : PipeReader).read 1).2.1 =
        min 1 ((⟨[[7, 8]], [], 0⟩ : PipeReader).fillBuf.buffer.length -
          (⟨[[7, 8]], [], 0⟩ : PipeReader).fillBuf.position) :=
  ⟨by decide, ((C3_read_contract ⟨[[7, 8]], [], 0⟩ 1).2 (by decide)).1⟩

/-- Claim C6: end-of-stream is absorbing: once a read with a non-empty
destination returns 0, every later read also returns 0 and leaves the
endpoint state unchanged. -/
theorem C6_eof_absorbing (r : PipeReader) (n : Nat) (h0 : 0 < n)
    (h : (r.read n).2.1 = 0) (m : Nat) :
    ((r.read n).1.read m).2.1 = 0 ∧ ((r.read n).1.read m).1 = (r.read n).1 := by
  obtain ⟨hst, hrec, hex⟩ := read_zero_state r n h0 h
  rw [hst]
  by_cases hm : m = 0
  · simp [PipeReader.read, hm]
  · have hfb : (r.fillBuf).fillBuf = r.fillBuf := fillBuf_of_receiver_nil _ hrec
    have hdrop : (r.fillBuf.buffer.drop r.fillBuf.position).length = 0 := by
      simp only [List.length_drop]
      omega
    simp [PipeReader.read, hm, hfb, hdrop]

/-- Witness for C6: an already-disconnected, exhausted endpoint returns 0
and keeps returning 0. -/
theorem C6_witness :
    0 < 1 ∧ ((⟨[], [], 0⟩ : PipeReader).read 1).2.1 = 0 ∧
      ((((⟨[], [], 0⟩ : PipeReader).read 1).1.read 5).2.1 = 0) :=
  ⟨by decide, by decide, (C6_eof_absorbing ⟨[], [], 0⟩ 1 (by decide) (by decide) 5).1⟩

/-- Claim C8: `into_inner` returns the receive handle together with exactly
the undelivered bytes: the slice of the current chunk from the cursor to
its end, in order, and nothing else. -/
theorem C8_into_inner (r : PipeReader) :
    r.into_inner = (r.receiver, r.buffer.drop r.position) := by
  simp [PipeReader.into_inner, drainTo_eq_drop]

/-- Claim C10: a zero-byte unbuffered write sends an empty chunk, and the
reader silently skips empty chunks: a read with a non-empty destination
returns 0 if and only if the current chunk is exhausted and every chunk
still to arrive before disconnect is empty (in particular an empty chunk
alone never makes a read return 0). -/
theorem C10_empty_chunks_skipped (r : PipeReader) (n : Nat) (ch : Channel)
    (h : 0 < n) (hc : ch.connected = true) :
    (PipeWriter.write ch []).1.sent = ch.sent ++ [[]] ∧
    ((r.read n).2.1 = 0 ↔ (r.buffer.length ≤ r.position ∧ ∀ c ∈ r.receiver, c = [])) := by
  constructor
  · simp [PipeWriter.write, PipeWriter.send, Channel.send, hc]
  · rw [read_count_eq r n h]
    have hiff := fillBufAux_exhausted_iff r.receiver r.buffer r.position
    simp only [PipeReader.fillBuf]
    constructor
    · intro h0
      refine hiff.mp ?_
      omega
    · intro hr
      have hex := hiff.mpr hr
      omega

/-- Witness for C10: a pending empty chunk followed by a one-byte chunk; a
read returns 1, matching the characterization (the right-hand side is
false because a non-empty chunk is pending). -/
theorem C10_witness :
    0 < 3 ∧ (⟨true, []⟩ : Channel).connected = true ∧
      (((⟨[[], [5]], [], 0⟩ : PipeReader).read 3).2.1 = 0 ↔
        (([] : List Nat).length ≤ 0 ∧ ∀ c ∈ [([] : List Nat), [5]], c = [])) :=
  ⟨by decide, rfl, (C10_empty_chunks_skipped ⟨[[], [5]], [], 0⟩ 3 ⟨true, []⟩ (by decide) rfl).2⟩

/-! ## Claims about the write endpoints -/

/-- Claim C7: the unbuffered write sends the whole input as exactly one
chunk and returns its length; with the reader gone it fails with broken
pipe and sends nothing; flush always succeeds and does nothing. -/
theorem C7_unbuffered_write (ch : Channel) (buf : List Nat) :
    (ch.connected = true →
      PipeWriter.write ch buf = ({ ch with sent := ch.sent ++ [buf] }, .ok buf.length)) ∧
    (ch.connected = false → PipeWriter.write ch buf = (ch, .error .brokenPipe)) ∧
    PipeWriter.flush = .ok () := by
  refine ⟨?_, ?_, rfl⟩
  · intro hc
    simp [PipeWriter.write, PipeWriter.send, Channel.send, hc]
  · intro hc
    simp [PipeWriter.write, PipeWriter.send, Channel.send, hc]

/-- Witness for C7 on a connected channel and a two-byte input. -/
theorem C7_witness :
    (⟨true, []⟩ : Channel).connected = true ∧
      PipeWriter.write ⟨true, []⟩ [1, 2] =
        ({ (⟨true, []⟩ : Channel) with
            sent := (⟨true, []⟩ : Channel).sent ++ [[1, 2]] },
          .ok ([1, 2] : List Nat).length) :=
  ⟨rfl, (C7_unbuffered_write ⟨true, []⟩ [1, 2]).1 rfl⟩

/-- Claim C5: buffered flush with an empty buffer succeeds and changes
nothing; with a non-empty buffer it sends the whole buffer as one chunk
and empties it on success, and on disconnect restores exactly the same
bytes and fails with broken pipe. -/
theorem C5_flush_contract (w : PipeBufWriter) (ch : Channel) :
    (w.buffer = [] → w.flush ch = (w, ch, .ok ())) ∧
    (w.buffer ≠ [] → ch.connected = true →
      w.flush ch =
        ({ w with buffer := [] }, { ch with sent := ch.sent ++ [w.buffer] }, .ok ())) ∧
    (w.buffer ≠ [] → ch.connected = false → w.flush ch = (w, ch, .error .brokenPipe)) := by
  refine ⟨?_, ?_, ?_⟩
  · intro h
    simp [PipeBufWriter.flush, h]
  · intro h hc
    simp [PipeBufWriter.flush, Channel.send, h, hc]
  · intro h hc
    simp [PipeBufWriter.flush, Channel.send, h, hc]

/-- Witness for C5: flushing a one-byte buffer on a connected channel. -/
theorem C5_witness :
    ([3] : List Nat) ≠ [] ∧ (⟨true, []⟩ : Channel).connected = true ∧
      PipeBufWriter.flush ⟨some 0, [3], 2⟩ ⟨true, []⟩ =
        ({ (⟨some 0, [3], 2⟩ : PipeBufWriter) with buffer := [] },
          { (⟨true, []⟩ : Channel) with
              sent := (⟨true, []⟩ : Channel).sent ++ [[3]] }, .ok ()) :=
  ⟨by decide, rfl, (C5_flush_contract ⟨some 0, [3], 2⟩ ⟨true, []⟩).2.1 (by decide) rfl⟩

/-- Claim C9: cloning a buffered writer shares the send handle, starts the
clone with an empty buffer, and keeps the same capacity; the clone holds
none of the original's staged bytes (the model's `clone` reads the
original immutably, so the original is unchanged by construction). -/
theorem C9_clone_semantics (w : PipeBufWriter) :
    w.clone.sender = w.sender ∧ w.clone.buffer = [] ∧ w.clone.capacity = w.capacity :=
  ⟨rfl, rfl, rfl⟩

/-! ## Case lemmas for the buffered write path -/

theorem write_full_flush_ok (w : PipeBufWriter) (ch : Channel) (rr : Bool) (buf : List Nat)
    (hcap : w.size ≤ w.buffer.length + (buf.take (w.bytesWritten buf)).length)
    (hne : w.buffer ++ buf.take (w.bytesWritten buf) ≠ [])
    (hc : ch.connected = true) :
    w.write ch rr buf =
      ({ w with buffer := [] },
        { ch with sent := ch.sent ++ [w.buffer ++ buf.take (w.bytesWritten buf)] },
        .ok (w.bytesWritten buf)) := by
  have hcap2 : w.size ≤ w.buffer.length + min (w.bytesWritten buf) buf.length := by
    rw [List.length_take] at hcap
    exact hcap
  simp [PipeBufWriter.write, PipeBufWriter.flush, Channel.send, hc, hcap2, hne,
    List.isEmpty_eq_true]

theorem write_full_flush_err (w : PipeBufWriter) (ch : Channel) (rr : Bool) (buf : List Nat)
    (hcap : w.size ≤ w.buffer.length + (buf.take (w.bytesWritten buf)).length)
    (hne : w.buffer ++ buf.take (w.bytesWritten buf) ≠ [])
    (hc : ch.connected = false) :
    w.write ch rr buf =
      ({ w with buffer := w.buffer ++ buf.take (w.bytesWritten buf) }, ch,
        .error .brokenPipe) := by
  have hcap2 : w.size ≤ w.buffer.length + min (w.bytesWritten buf) buf.length := by
    rw [List.length_take] at hcap
    exact hcap
  simp [PipeBufWriter.write, PipeBufWriter.flush, Channel.send, hc, hcap2, hne,
    List.isEmpty_eq_true]

theorem write_full_empty (w : PipeBufWriter) (ch : Channel) (rr : Bool) (buf : List Nat)
    (hcap : w.size ≤ w.buffer.length + (buf.take (w.bytesWritten buf)).length)
    (he : w.buffer ++ buf.take (w.bytesWritten buf) = []) :
    w.write ch rr buf = ({ w with buffer := [] }, ch, .ok (w.bytesWritten buf)) := by
  rw [List.append_eq_nil] at he
  have hsz : w.size = 0 := by
    simp [he.1, he.2] at hcap
    exact hcap
  simp [PipeBufWriter.write, PipeBufWriter.flush, he.1, he.2, hsz,
    List.isEmpty_eq_true]

theorem write_try_ok (w : PipeBufWriter) (ch : Channel) (buf : List Nat)
    (hcap : w.buffer.length + (buf.take (w.bytesWritten buf)).length < w.size)
    (hc : ch.connected = true) :
    w.write ch true buf =
      ({ w with buffer := [] },
        { ch with sent := ch.sent ++ [w.buffer ++ buf.take (w.bytesWritten buf)] },
        .ok (w.bytesWritten buf)) := by
  have hcap2 : ¬ w.size ≤ w.buffer.length + min (w.bytesWritten buf) buf.length := by
    rw [List.length_take] at hcap
    omega
  simp [PipeBufWriter.write, Channel.trySend, hc, hcap2]

theorem write_try_full (w : PipeBufWriter) (ch : Channel) (buf : List Nat)
    (hcap : w.buffer.length + (buf.take (w.bytesWritten buf)).length < w.size)
    (hc : ch.connected = true) :
    w.write ch false buf =
      ({ w with buffer := w.buffer ++ buf.take (w.bytesWritten buf) }, ch,
        .ok (w.bytesWritten buf)) := by
  have hcap2 : ¬ w.size ≤ w.buffer.length + min (w.bytesWritten buf) buf.length := by
    rw [List.length_take] at hcap
    omega
  simp [PipeBufWriter.write, Channel.trySend, hc, hcap2]

theorem write_try_disconnected (w : PipeBufWriter) (ch : Channel) (rr : Bool) (buf : List Nat)
    (hcap : w.buffer.length + (buf.take (w.bytesWritten buf)).length < w.size)
    (hc : ch.connected = false) :
    w.write ch rr buf = (w, ch, .error .brokenPipe) := by
  have hcap2 : ¬ w.size ≤ w.buffer.length + min (w.bytesWritten buf) buf.length := by
    rw [List.length_take] at hcap
    omega
  simp [PipeBufWriter.write, Channel.trySend, hc, hcap2, List.take_left]

/-- Claim C1 counterexample: with capacity 4, two staged bytes `[1, 2]` and
an oversized five-byte input `[3, 4, 5, 6, 7]`, the write reports the full
input length, but the single chunk delivered is the staged bytes followed
by the input — the input is not sent as its own chunk and is staged
through the accumulation buffer. -/
theorem C1_counterexample :
    (PipeBufWriter.write ⟨some 0, [1, 2], 4⟩ ⟨true, []⟩ false [3, 4, 5, 6, 7]).2.1.sent =
        [[1, 2, 3, 4, 5, 6, 7]] ∧
      (PipeBufWriter.write ⟨some 0, [1, 2], 4⟩ ⟨true, []⟩ false [3, 4, 5, 6, 7]).2.2 =
        Except.ok 5 ∧
      [[1, 2, 3, 4, 5, 6, 7]] ≠ [[(3 : Nat), 4, 5, 6, 7]] :=
  ⟨rfl, rfl, by decide⟩

/-- Claim C1 (amended): an oversized write (input longer than the capacity)
accepts and reports the full input length, but the input is appended to
the accumulation buffer (which therefore transiently exceeds the
capacity) and the entire buffer — previously staged bytes followed by the
input — is immediately sent as one chunk by a blocking flush; on success
the buffer is left empty.  When no bytes were staged, that one chunk is
exactly the input. -/
theorem C1_oversized_write (w : PipeBufWriter) (ch : Channel) (rr : Bool) (buf : List Nat)
    (hover : w.size < buf.length) (hc : ch.connected = true) :
    w.write ch rr buf =
      ({ w with buffer := [] },
        { ch with sent := ch.sent ++ [w.buffer ++ buf] }, .ok buf.length) := by
  have hbw : w.bytesWritten buf = buf.length := by
    simp [PipeBufWriter.bytesWritten, hover]
  have htake : buf.take (w.bytesWritten buf) = buf := by
    rw [hbw, List.take_length]
  have hbufne : buf ≠ [] := by
    intro h
    rw [h] at hover
    simp at hover
  have hcap : w.size ≤ w.buffer.length + (buf.take (w.bytesWritten buf)).length := by
    rw [htake]
    omega
  have hne : w.buffer ++ buf.take (w.bytesWritten buf) ≠ [] := by
    rw [htake]
    intro h
    exact hbufne (List.append_eq_nil.mp h).2
  rw [write_full_flush_ok w ch rr buf hcap hne hc, htake, hbw]

/-- Witness for the amended C1: empty buffer, capacity 2, three-byte
input. -/
theorem C1_witness :
    (2 : Nat) < ([9, 9, 9] : List Nat).length ∧ (⟨true, []⟩ : Channel).connected = true ∧
      PipeBufWriter.write ⟨some 0, [], 2⟩ ⟨true, []⟩ false [9, 9, 9] =
        ({ (⟨some 0, [], 2⟩ : PipeBufWriter) with buffer := [] },
          { (⟨true, []⟩ : Channel) with
              sent := (⟨true, []⟩ : Channel).sent ++
                [(⟨some 0, [], 2⟩ : PipeBufWriter).buffer ++ [9, 9, 9]] },
          .ok ([9, 9, 9] : List Nat).length) :=
  ⟨by decide, rfl,
    C1_oversized_write ⟨some 0, [], 2⟩ ⟨true, []⟩ false [9, 9, 9] (by decide) rfl⟩

/-- Claim C2 counterexample: capacity 4, empty buffer, disconnected
channel, oversized input `[1, 2, 3, 4, 5]`: the write fails with broken
pipe, yet immediately after the call the buffer holds 5 bytes — more than
the capacity — refuting the claim that the buffer length is at most C
after a write that returns a broken-pipe error. -/
theorem C2_counterexample :
    (PipeBufWriter.write ⟨some 0, [], 4⟩ ⟨false, []⟩ false [1, 2, 3, 4, 5]).2.2 =
        Except.error IOError.brokenPipe ∧
      4 < (PipeBufWriter.write ⟨some 0, [], 4⟩ ⟨false, []⟩ false [1, 2, 3, 4, 5]).1.buffer.length :=
  ⟨rfl, by decide⟩

/-- Claim C2 (amended): starting from a buffer within capacity, the buffer
length stays at most the capacity C after every flush call (success or
failure), after every write whose input is at most C, and after every
write that succeeds; the single exception is an oversized write (input
longer than C) that fails with broken pipe, which leaves the buffer
holding the previously staged bytes followed by the whole input — more
than C bytes, kept so that no caller data is lost. -/
theorem C2_buffer_bound (w : PipeBufWriter) (ch : Channel) (rr : Bool) (buf : List Nat)
    (hw : w.buffer.length ≤ w.size) :
    ((w.flush ch).1.buffer.length ≤ w.size) ∧
    (buf.length ≤ w.size → (w.write ch rr buf).1.buffer.length ≤ w.size) ∧
    (∀ k, (w.write ch rr buf).2.2 = .ok k → (w.write ch rr buf).1.buffer.length ≤ w.size) ∧
    (w.size < buf.length → (w.write ch rr buf).2.2 = .error .brokenPipe →
      (w.write ch rr buf).1.buffer = w.buffer ++ buf) := by
  have hflush : (w.flush ch).1.buffer.length ≤ w.size := by
    by_cases he : w.buffer.isEmpty
    · simp [PipeBufWriter.flush, he, hw]
    · by_cases hc : ch.connected = true
      · simp [PipeBufWriter.flush, he, Channel.send, hc]
      · have hc2 : ch.connected = false := by simpa using hc
        simp [PipeBufWriter.flush, he, Channel.send, hc2, hw]
  refine ⟨hflush, ?_⟩
  have htlen : (buf.take (w.bytesWritten buf)).length = min (w.bytesWritten buf) buf.length :=
    List.length_take _ _
  by_cases hover : w.size < buf.length
  · have hbw : w.bytesWritten buf = buf.length := by
      simp [PipeBufWriter.bytesWritten, hover]
    have htake : buf.take (w.bytesWritten buf) = buf := by
      rw [hbw, List.take_length]
    have hbufne : buf ≠ [] := by
      intro h
      rw [h] at hover
      simp at hover
    have hcap : w.size ≤ w.buffer.length + (buf.take (w.bytesWritten buf)).length := by
      rw [htake]
      omega
    have hne : w.buffer ++ buf.take (w.bytesWritten buf) ≠ [] := by
      rw [htake]
      intro h
      exact hbufne (List.append_eq_nil.mp h).2
    by_cases hc : ch.connected = true
    · rw [write_full_flush_ok w ch rr buf hcap hne hc]
      refine ⟨fun _ => by simp, fun k _ => by simp, fun _ hcontra => ?_⟩
      simp at hcontra
    · have hc2 : ch.connected = false := by simpa using hc
      rw [write_full_flush_err w ch rr buf hcap hne hc2]
      refine ⟨fun hle => absurd hover (by omega), fun k hk => by simp at hk, fun _ _ => ?_⟩
      show w.buffer ++ buf.take (w.bytesWritten buf) = w.buffer ++ buf
      rw [htake]
  · have hbw : w.bytesWritten buf = min buf.length (w.size - w.buffer.length) := by
      simp only [PipeBufWriter.bytesWritten]
      rw [if_neg hover]
    have hA : w.buffer.length + (buf.take (w.bytesWritten buf)).length ≤ w.size := by
      rw [htlen, hbw]
      omega
    by_cases hcapb : w.size ≤ w.buffer.length + (buf.take (w.bytesWritten buf)).length
    · by_cases hemp : w.buffer ++ buf.take (w.bytesWritten buf) = []
      · rw [write_full_empty w ch rr buf hcapb hemp]
        exact ⟨fun _ => by simp, fun k _ => by simp, fun hcontra _ => absurd hcontra hover⟩
      · by_cases hc : ch.connected = true
        · rw [write_full_flush_ok w ch rr buf hcapb hemp hc]
          exact ⟨fun _ => by simp, fun k _ => by simp, fun hcontra _ => absurd hcontra hover⟩
        · have hc2 : ch.connected = false := by simpa using hc
          rw [write_full_flush_err w ch rr buf hcapb hemp hc2]
          refine ⟨fun _ => ?_, fun k hk => by simp at hk, fun hcontra _ => absurd hcontra hover⟩
          show (w.buffer ++ buf.take (w.bytesWritten buf)).length ≤ w.size
          rw [List.length_append]
          exact hA
    · have hlt : w.buffer.length + (buf.take (w.bytesWritten buf)).length < w.size := by
        omega
      by_cases hc : ch.connected = true
      · by_cases hrr : rr = true
        · rw [hrr, write_try_ok w ch buf hlt hc]
          exact ⟨fun _ => by simp, fun k _ => by simp, fun hcontra _ => absurd hcontra hover⟩
        · have hrr2 : rr = false := by simpa using hrr
          rw [hrr2, write_try_full w ch buf hlt hc]
          refine ⟨fun _ => ?_, fun k _ => ?_, fun hcontra _ => absurd hcontra hover⟩
          · show (w.buffer ++ buf.take (w.bytesWritten buf)).length ≤ w.size
            rw [List.length_append]
            exact hA
          · show (w.buffer ++ buf.take (w.bytesWritten buf)).length ≤ w.size
            rw [List.length_append]
            exact hA
      · have hc2 : ch.connected = false := by simpa using hc
        rw [write_try_disconnected w ch rr buf hlt hc2]
        exact ⟨fun _ => hw, fun k hk => by simp at hk, fun hcontra _ => absurd hcontra hover⟩

/-- Witness for the amended C2: a flush of a one-byte buffer with capacity
4 leaves the buffer within capacity. -/
theorem C2_witness :
    ([1] : List Nat).length ≤ 4 ∧
      ((⟨some 0, [1], 4⟩ : PipeBufWriter).flush ⟨true, []⟩).1.buffer.length ≤ 4 :=
  ⟨by decide, (C2_buffer_bound ⟨some 0, [1], 4⟩ ⟨true, []⟩ false [] (by decide)).1⟩

/-- Claim C4: on the opportunistic non-blocking path (buffer still below
capacity after accepting bytes): if the channel has no waiting receiver,
the attempted chunk — the staged bytes in order — is restored unchanged as
the buffer and the write succeeds with the accepted count; if the channel
is disconnected, the buffer is truncated back to its pre-write contents
(the newly accepted bytes are discarded) and the call fails with broken
pipe, sending nothing. -/
theorem C4_opportunistic_send (w : PipeBufWriter) (ch : Channel) (rr : Bool) (buf : List Nat)
    (hlt : w.buffer.length + (buf.take (w.bytesWritten buf)).length < w.size) :
    (ch.connected = true → rr = false →
      w.write ch rr buf =
        ({ w with buffer := w.buffer ++ buf.take (w.bytesWritten buf) }, ch,
          .ok (w.bytesWritten buf))) ∧
    (ch.connected = false → w.write ch rr buf = (w, ch, .error .brokenPipe)) := by
  constructor
  · intro hc hrr
    rw [hrr]
    exact write_try_full w ch buf hlt hc
  · intro hc
    exact write_try_disconnected w ch rr buf hlt hc

/-- Witness for C4: one staged byte, capacity 4, one-byte input, connected
channel with no waiting receiver. -/
theorem C4_witness :
    ((⟨some 0, [1], 4⟩ : PipeBufWriter).buffer.length +
        (([2] : List Nat).take ((⟨some 0, [1], 4⟩ : PipeBufWriter).bytesWritten [2])).length <
        4) ∧
      (⟨true, []⟩ : Channel).connected = true ∧
      PipeBufWriter.write ⟨some 0, [1], 4⟩ ⟨true, []⟩ false [2] =
        ({ (⟨some 0, [1], 4⟩ : PipeBufWriter) with
            buffer := (⟨some 0, [1], 4⟩ : PipeBufWriter).buffer ++
              ([2] : List Nat).take ((⟨some 0, [1], 4⟩ : PipeBufWriter).bytesWritten [2]) },
          ⟨true, []⟩, .ok ((⟨some 0, [1], 4⟩ : PipeBufWriter).bytesWritten [2])) :=
  ⟨by decide, rfl,
    (C4_opportunistic_send ⟨some 0, [1], 4⟩ ⟨true, []⟩ false [2] (by decide)).1 rfl rfl⟩
